import Mathlib

/-!
Shallow embedding of `src/react-src/react-reconciler/src/SchedulerWithReactIntegration.old.js`.

The module is a priority-translating scheduling layer between a rendering
engine and a host scheduling primitive ("Scheduler").  Pure functions of the
source become Lean functions; module-level mutable state (`syncQueue`,
`immediateQueueCallbackNode`, `isFlushingSyncQueue`, the ambient host
priority, and the rendering engine's current update lane priority) becomes an
explicit `SchedState` record threaded through the operations.  Calls into the
host primitive (`Scheduler_scheduleCallback`, `Scheduler_cancelCallback`) are
recorded in an observable log.  A thrown JS error is modelled as an
`Except`/`Option` error value that the operations return and propagate.
-/

/-! ### React priority levels (source constants, lines 68-74) -/

def ImmediatePriority : Nat := 99
def UserBlockingPriority : Nat := 98
def NormalPriority : Nat := 97
def LowPriority : Nat := 96
def IdlePriority : Nat := 95
def NoPriority : Nat := 90

/-! ### Host (Scheduler) priority constants.

The numeric values of the host primitive's priority constants are documented
by the source file's own comment block above `getCurrentPriorityLevel`
(`ImmediatePriority = 1; -> 99` etc.): the host uses 1..5 for
Immediate/UserBlocking/Normal/Low/Idle and 0 for NoPriority. -/

def Scheduler_ImmediatePriority : Nat := 1
def Scheduler_UserBlockingPriority : Nat := 2
def Scheduler_NormalPriority : Nat := 3
def Scheduler_LowPriority : Nat := 4
def Scheduler_IdlePriority : Nat := 5

/-! ### Priority translation (source lines 103-141)

`getCurrentPriorityLevel` in the source reads the host primitive's ambient
priority via `Scheduler_getCurrentPriorityLevel()` and switches on it; here
the ambient host value is the explicit argument.  The `default` branch of
each switch calls `invariant(false, 'Unknown priority level.')`, which
throws; that is modelled by `Except.error`. -/

def getCurrentPriorityLevel (schedulerPriority : Nat) : Except String Nat :=
  if schedulerPriority = Scheduler_ImmediatePriority then Except.ok ImmediatePriority
  else if schedulerPriority = Scheduler_UserBlockingPriority then Except.ok UserBlockingPriority
  else if schedulerPriority = Scheduler_NormalPriority then Except.ok NormalPriority
  else if schedulerPriority = Scheduler_LowPriority then Except.ok LowPriority
  else if schedulerPriority = Scheduler_IdlePriority then Except.ok IdlePriority
  else Except.error "Unknown priority level."

def reactPriorityToSchedulerPriority (reactPriorityLevel : Nat) : Except String Nat :=
  if reactPriorityLevel = ImmediatePriority then Except.ok Scheduler_ImmediatePriority
  else if reactPriorityLevel = UserBlockingPriority then Except.ok Scheduler_UserBlockingPriority
  else if reactPriorityLevel = NormalPriority then Except.ok Scheduler_NormalPriority
  else if reactPriorityLevel = LowPriority then Except.ok Scheduler_LowPriority
  else if reactPriorityLevel = IdlePriority then Except.ok Scheduler_IdlePriority
  else Except.error "Unknown priority level."

/-! ### `now` (source lines 83-93)

`now` is selected at module initialization: if the host clock's initial
reading `initialTimeMs` is below 10000 the host clock is forwarded
unchanged, otherwise every reading is rebased by subtracting
`initialTimeMs`.  Both the initial reading and the current reading are
explicit arguments here. -/

def now (initialTimeMs : Int) (schedulerNow : Int) : Int :=
  if initialTimeMs < 10000 then schedulerNow else schedulerNow - initialTimeMs

/-! ### The synchronous flush queue state

Module-level mutable variables of the source become fields of `SchedState`.
Calls made into the host primitive are recorded in `hostLog`; every
invocation of a queued callback is recorded in `runLog` as the pair of the
callback's label and the `isSync` flag it was invoked with. -/

/-- Which of the two flush entry points the source hands to
`Scheduler_scheduleCallback`: `scheduleSyncCallback` registers
`flushSyncCallbackQueueImpl` (line 168), the error-recovery path registers
`flushSyncCallbackQueue` (lines 235 and 267). -/
inductive FlushKind where
  | impl
  | outer
deriving DecidableEq, Repr

/-- An observable call made into the host scheduling primitive. -/
inductive HostCall where
  | schedule (priority : Nat) (token : Nat) (kind : FlushKind)
  | cancel (token : Nat)
deriving DecidableEq, Repr

/-- The handle returned to callers: the sentinel `fakeCallbackNode` for
synchronous-queue work, or the host primitive's own node (a token here). -/
inductive CallbackNode where
  | fakeCallbackNode
  | hostCallbackNode (token : Nat)
deriving DecidableEq, Repr

/-- A modelled `SchedulerCallback`.  The source type is
`(isSync: boolean) => SchedulerCallback | null`; a callback is arbitrary
code, so it is embedded as a small language covering the behaviours the
module can observe: finish (`basic`), return a continuation (`cont`), throw
(`throws`, the thrown error is the label), call `scheduleSyncCallback` with
another callback and then finish (`schedules`), or read the current update
lane priority and then finish (`readLane`).  The `id` is an observational
label recorded in the run log. -/
inductive Callback where
  | basic (id : Nat)
  | cont (id : Nat) (next : Callback)
  | throws (id : Nat)
  | schedules (id : Nat) (other : Callback)
  | readLane (id : Nat)
deriving DecidableEq, Repr

/-- The module-level state of `SchedulerWithReactIntegration.old.js` plus
observation logs.  `lanePriority` models the rendering engine's
`currentUpdateLanePriority` (read/written through
`getCurrentUpdateLanePriority` / `setCurrentUpdateLanePriority`), and
`ambientHostPriority` the host primitive's ambient priority level that
`Scheduler_runWithPriority` sets for the duration of a call. -/
structure SchedState where
  syncQueue : Option (List Callback)
  immediateQueueCallbackNode : Option Nat
  isFlushingSyncQueue : Bool
  nextToken : Nat
  hostLog : List HostCall
  runLog : List (Nat × Bool)
  lanePriority : Nat
  laneObsLog : List (Nat × Nat)
  ambientHostPriority : Nat
deriving DecidableEq, Repr

/-- Modelled from the spec: `SyncLanePriority` is imported from
`./ReactFiberLane`, which is not among the provided sources; the spec calls
it "a distinguished synchronous update-priority".  Only its identity
matters to the claims; the value follows React's lane-priority table. -/
def SyncLanePriority : Nat := 15

/-- Modelled from the spec: the rendering engine's initial
`currentUpdateLanePriority` (absence of an update priority). -/
def NoLanePriority : Nat := 0

/-- `scheduleSyncCallback` (source lines 163-179): push the callback onto
the internal queue; when the queue is absent, create it and register one
Immediate-priority flush with the host primitive, remembering the host's
node in `immediateQueueCallbackNode`.  Always returns `fakeCallbackNode`. -/
def scheduleSyncCallback (s : SchedState) (callback : Callback) :
    SchedState × CallbackNode :=
  match s.syncQueue with
  | none =>
      ({ s with
          syncQueue := some [callback],
          immediateQueueCallbackNode := some s.nextToken,
          nextToken := s.nextToken + 1,
          hostLog := s.hostLog ++
            [HostCall.schedule Scheduler_ImmediatePriority s.nextToken FlushKind.impl] },
        CallbackNode.fakeCallbackNode)
  | some queue =>
      ({ s with syncQueue := some (queue ++ [callback]) },
        CallbackNode.fakeCallbackNode)

/-- `cancelCallback` (source lines 181-185): forward to the host primitive's
cancel unless the handle is the sentinel `fakeCallbackNode`. -/
def cancelCallback (s : SchedState) (callbackNode : CallbackNode) : SchedState :=
  match callbackNode with
  | CallbackNode.fakeCallbackNode => s
  | CallbackNode.hostCallbackNode token =>
      { s with hostLog := s.hostLog ++ [HostCall.cancel token] }

/-- Record one callback invocation (label and `isSync` flag) in the run log. -/
def pushRun (id : Nat) (isSync : Bool) (s : SchedState) : SchedState :=
  { s with runLog := s.runLog ++ [(id, isSync)] }

/-- Run one queue entry's continuation chain to completion: the source's
`do { callback = callback(isSync) } while (callback !== null)` (lines
221-224).  Returns the state after the chain and the error thrown by the
chain, if any. -/
def runChain (isSync : Bool) : Callback → SchedState → SchedState × Option Nat
  | Callback.basic id, s => (pushRun id isSync s, none)
  | Callback.throws id, s => (pushRun id isSync s, some id)
  | Callback.readLane id, s =>
      ({ pushRun id isSync s with
          laneObsLog := s.laneObsLog ++ [(id, s.lanePriority)] }, none)
  | Callback.schedules id other, s =>
      ((scheduleSyncCallback (pushRun id isSync s) other).1, none)
  | Callback.cont id next, s => runChain isSync next (pushRun id isSync s)

/-- Structural size of a callback chain, the termination measure for the
drain loop. -/
def Callback.size : Callback → Nat
  | Callback.basic _ => 1
  | Callback.throws _ => 1
  | Callback.readLane _ => 1
  | Callback.cont _ next => 1 + next.size
  | Callback.schedules _ other => 1 + other.size

/-- Total size of a list of callbacks. -/
def sizeSum (l : List Callback) : Nat := (l.map Callback.size).sum

/-- Total size of the queue entries not yet processed by the drain loop. -/
def queueSizeFrom (i : Nat) (q : List Callback) : Nat := sizeSum (q.drop i)

/-- The drain loop of `flushSyncCallbackQueueImpl` (source lines 219-225):
`for (; i < queue.length; i++) { let callback = queue[i]; do ... while }`.
In the source, `queue` is a reference to the same array as `syncQueue`;
`scheduleSyncCallback` mutates that array in place while the loop runs and
nothing reassigns `syncQueue` during the loop, so the loop reads the live
queue — modelled by reading `s.syncQueue` afresh each iteration.  Returns
the state after the loop and, when a callback threw, the error together
with the loop index `i` at which it threw. -/
def drainLoop (isSync : Bool) (i : Nat) (s : SchedState) :
    SchedState × Option (Nat × Nat) :=
  match hq : s.syncQueue with
  | none => (s, none)
  | some queue =>
      if h : i < queue.length then
        match hr : runChain isSync (queue.get ⟨i, h⟩) s with
        | (s1, none) => drainLoop isSync (i + 1) s1
        | (s1, some error) => (s1, some (error, i))
      else (s, none)
termination_by queueSizeFrom i (s.syncQueue.getD [])
decreasing_by
  have key : ∀ (cb : Callback) (s2 : SchedState) (q2 : List Callback),
      s2.syncQueue = some q2 →
      ∃ app, (runChain isSync cb s2).1.syncQueue = some (q2 ++ app) ∧
        sizeSum app < cb.size := by
    intro cb
    induction cb with
    | basic id =>
        intro s2 q2 h2
        exact ⟨[], by simp [runChain, pushRun, h2], by simp [sizeSum, Callback.size]⟩
    | cont id next ih =>
        intro s2 q2 h2
        obtain ⟨app, ha, hlt⟩ := ih (pushRun id isSync s2) q2 (by simp [pushRun, h2])
        refine ⟨app, by simpa [runChain] using ha, ?_⟩
        have : next.size < (Callback.cont id next).size := by
          simp only [Callback.size]
          omega
        omega
    | throws id =>
        intro s2 q2 h2
        exact ⟨[], by simp [runChain, pushRun, h2], by simp [sizeSum, Callback.size]⟩
    | schedules id other =>
        intro s2 q2 h2
        refine ⟨[other], ?_, by simp [sizeSum, Callback.size]⟩
        simp [runChain, scheduleSyncCallback, pushRun, h2]
    | readLane id =>
        intro s2 q2 h2
        exact ⟨[], by simp [runChain, pushRun, h2], by simp [sizeSum, Callback.size]⟩
  obtain ⟨app, ha, hlt⟩ := key (queue.get ⟨i, h⟩) s queue hq
  rw [hr] at ha
  simp only at ha
  rw [hq]
  rw [ha]
  simp only [Option.getD_some, queueSizeFrom]
  rw [List.drop_append_of_le_length (by omega)]
  rw [List.drop_eq_getElem_cons h]
  simp only [sizeSum, List.map_append, List.sum_append, List.map_cons, List.sum_cons,
    List.get_eq_getElem] at hlt ⊢
  omega

/-- `flushSyncCallbackQueueImpl` (source lines 201-279).  Parametrised by the
build-time capability flag `decoupleUpdatePriorityFromScheduler`.  Mirrors
the source: guard on `!isFlushingSyncQueue && syncQueue !== null`; set the
guard; in the decoupled branch snapshot `currentUpdateLanePriority` and
force `SyncLanePriority`; run the loop at Immediate priority via
`runWithPriority` (which translates `ImmediatePriority` to
`Scheduler_ImmediatePriority`, sets the host's ambient priority for the
duration and restores it); on success set `syncQueue` to `null`; on a
thrown error slice the queue to the entries strictly after index `i`,
register a new Immediate-priority `flushSyncCallbackQueue` with the host,
and re-raise; in all cases (`finally`) restore the lane priority snapshot
and clear the guard. -/
def flushSyncCallbackQueueImpl (decoupleUpdatePriorityFromScheduler : Bool)
    (s : SchedState) : SchedState × Option Nat :=
  if s.isFlushingSyncQueue = false ∧ s.syncQueue ≠ none then
    let s1 : SchedState := { s with isFlushingSyncQueue := true }
    if decoupleUpdatePriorityFromScheduler then
      let previousLanePriority := s1.lanePriority
      let s2 : SchedState := { s1 with lanePriority := SyncLanePriority }
      let previousHostPriority := s2.ambientHostPriority
      let s3 : SchedState := { s2 with ambientHostPriority := Scheduler_ImmediatePriority }
      let r := drainLoop true 0 s3
      let s4 : SchedState := { r.1 with ambientHostPriority := previousHostPriority }
      match r.2 with
      | none =>
          ({ s4 with syncQueue := none, lanePriority := previousLanePriority,
                     isFlushingSyncQueue := false }, none)
      | some (error, i) =>
          let s5 : SchedState :=
            match s4.syncQueue with
            | some q => { s4 with syncQueue := some (q.drop (i + 1)) }
            | none => s4
          let s6 : SchedState := { s5 with
            hostLog := s5.hostLog ++
              [HostCall.schedule Scheduler_ImmediatePriority s5.nextToken FlushKind.outer],
            nextToken := s5.nextToken + 1 }
          ({ s6 with lanePriority := previousLanePriority,
                     isFlushingSyncQueue := false }, some error)
    else
      let previousHostPriority := s1.ambientHostPriority
      let s3 : SchedState := { s1 with ambientHostPriority := Scheduler_ImmediatePriority }
      let r := drainLoop true 0 s3
      let s4 : SchedState := { r.1 with ambientHostPriority := previousHostPriority }
      match r.2 with
      | none =>
          ({ s4 with syncQueue := none, isFlushingSyncQueue := false }, none)
      | some (error, i) =>
          let s5 : SchedState :=
            match s4.syncQueue with
            | some q => { s4 with syncQueue := some (q.drop (i + 1)) }
            | none => s4
          let s6 : SchedState := { s5 with
            hostLog := s5.hostLog ++
              [HostCall.schedule Scheduler_ImmediatePriority s5.nextToken FlushKind.outer],
            nextToken := s5.nextToken + 1 }
          ({ s6 with isFlushingSyncQueue := false }, some error)
  else (s, none)

/-- `flushSyncCallbackQueue` (source lines 188-198): if a pending host
registration exists, clear the stored node and cancel it with the host
primitive, then invoke the drain routine in the current execution
context. -/
def flushSyncCallbackQueue (decoupleUpdatePriorityFromScheduler : Bool)
    (s : SchedState) : SchedState × Option Nat :=
  let s1 : SchedState :=
    match s.immediateQueueCallbackNode with
    | some node =>
        { s with immediateQueueCallbackNode := none,
                 hostLog := s.hostLog ++ [HostCall.cancel node] }
    | none => s
  flushSyncCallbackQueueImpl decoupleUpdatePriorityFromScheduler s1

/-- The module's state right after initialization: no queue, no pending
registration, guard clear, empty logs; the host primitive's ambient
priority starts at its normal level. -/
def initialState : SchedState :=
  { syncQueue := none, immediateQueueCallbackNode := none,
    isFlushingSyncQueue := false, nextToken := 0, hostLog := [], runLog := [],
    lanePriority := NoLanePriority, laneObsLog := [],
    ambientHostPriority := Scheduler_NormalPriority }

/-- A sequence of `scheduleSyncCallback` calls with no intervening flush. -/
def enqueueAll (cbs : List Callback) (s : SchedState) : SchedState :=
  cbs.foldl (fun acc cb => (scheduleSyncCallback acc cb).1) s

/-! ### Derived per-chain observations, used to state the claims -/

/-- The run-log entries produced by exhausting one callback's continuation
chain with the flag `isSync`. -/
def Callback.chainLog (isSync : Bool) : Callback → List (Nat × Bool)
  | Callback.basic id => [(id, isSync)]
  | Callback.throws id => [(id, isSync)]
  | Callback.readLane id => [(id, isSync)]
  | Callback.schedules id _ => [(id, isSync)]
  | Callback.cont id next => (id, isSync) :: next.chainLog isSync

/-- The error a callback chain throws, if any. -/
def Callback.chainErr : Callback → Option Nat
  | Callback.throws id => some id
  | Callback.cont _ next => next.chainErr
  | _ => none

/-- The callbacks a chain passes to `scheduleSyncCallback` while running. -/
def Callback.chainSched : Callback → List Callback
  | Callback.schedules _ other => [other]
  | Callback.cont _ next => next.chainSched
  | _ => []

/-- The lane-priority observations a chain records, given the lane priority
in effect while it runs. -/
def Callback.chainObs (lanePriority : Nat) : Callback → List (Nat × Nat)
  | Callback.readLane id => [(id, lanePriority)]
  | Callback.cont _ next => next.chainObs lanePriority
  | _ => []

/-- A callback chain that completes without throwing and without side
effects on the module state: it only gets invoked, link by link, until it
returns null. -/
def Callback.plain : Callback → Bool
  | Callback.basic _ => true
  | Callback.cont _ next => next.plain
  | _ => false

/-! ### Helper lemmas about the drain loop and callback chains -/

theorem drainLoop_queue_absent (isSync i) (s : SchedState)
    (hq : s.syncQueue = none) : drainLoop isSync i s = (s, none) := by
  rw [drainLoop.eq_def, hq]

theorem drainLoop_done (isSync i) (s : SchedState) (q : List Callback)
    (hq : s.syncQueue = some q) (h : ¬ i < q.length) :
    drainLoop isSync i s = (s, none) := by
  rw [drainLoop.eq_def, hq]
  simp [h]

theorem drainLoop_step_ok (isSync i) (s s1 : SchedState) (q : List Callback)
    (hq : s.syncQueue = some q) (h : i < q.length)
    (hr : runChain isSync (q.get ⟨i, h⟩) s = (s1, none)) :
    drainLoop isSync i s = drainLoop isSync (i + 1) s1 := by
  rw [drainLoop.eq_def, hq]
  simp only [dif_pos h]
  split
  next s2 heq =>
    rw [hr] at heq
    injection heq with h1 h2
    rw [h1]
  next s2 e heq =>
    rw [hr] at heq
    injection heq with h1 h2
    exact absurd h2.symm (by simp)

theorem drainLoop_step_err (isSync i) (s s1 : SchedState) (q : List Callback)
    (error : Nat) (hq : s.syncQueue = some q) (h : i < q.length)
    (hr : runChain isSync (q.get ⟨i, h⟩) s = (s1, some error)) :
    drainLoop isSync i s = (s1, some (error, i)) := by
  rw [drainLoop.eq_def, hq]
  simp only [dif_pos h]
  split
  next s2 heq =>
    rw [hr] at heq
    injection heq with h1 h2
    exact absurd h2 (by simp)
  next s2 e heq =>
    rw [hr] at heq
    injection heq with h1 h2
    injection h2 with h3
    rw [h1, h3]

theorem runChain_plain (isSync : Bool) :
    ∀ cb : Callback, cb.plain = true → ∀ s : SchedState,
      runChain isSync cb s =
        ({ s with runLog := s.runLog ++ cb.chainLog isSync }, none) := by
  intro cb
  induction cb with
  | basic id =>
      intro _ s
      simp [runChain, pushRun, Callback.chainLog]
  | cont id next ih =>
      intro hp s
      have hnext := ih (by simpa [Callback.plain] using hp) (pushRun id isSync s)
      simp only [runChain, Callback.chainLog]
      rw [hnext]
      simp [pushRun, List.append_assoc]
  | throws id => intro hp _; simp [Callback.plain] at hp
  | schedules id other _ => intro hp _; simp [Callback.plain] at hp
  | readLane id => intro hp _; simp [Callback.plain] at hp

theorem runChain_throws (isSync : Bool) (a : Nat) (s : SchedState) :
    runChain isSync (Callback.throws a) s =
      ({ s with runLog := s.runLog ++ [(a, isSync)] }, some a) := rfl

theorem runChain_readLane (isSync : Bool) (a : Nat) (s : SchedState) :
    runChain isSync (Callback.readLane a) s =
      ({ s with runLog := s.runLog ++ [(a, isSync)],
                laneObsLog := s.laneObsLog ++ [(a, s.lanePriority)] }, none) := rfl

theorem runChain_schedules (isSync : Bool) (a : Nat) (c : Callback)
    (s : SchedState) (q : List Callback) (hq : s.syncQueue = some q) :
    runChain isSync (Callback.schedules a c) s =
      ({ s with syncQueue := some (q ++ [c]),
                runLog := s.runLog ++ [(a, isSync)] }, none) := by
  simp [runChain, scheduleSyncCallback, pushRun, hq]

theorem runChain_pres (isSync : Bool) :
    ∀ (cb : Callback) (s : SchedState),
      (runChain isSync cb s).1.lanePriority = s.lanePriority ∧
      (runChain isSync cb s).1.isFlushingSyncQueue = s.isFlushingSyncQueue := by
  intro cb
  induction cb with
  | basic id => intro s; exact ⟨rfl, rfl⟩
  | cont id next ih =>
      intro s
      simpa [runChain, pushRun] using ih (pushRun id isSync s)
  | throws id => intro s; exact ⟨rfl, rfl⟩
  | schedules id other _ =>
      intro s
      cases hsq : s.syncQueue <;>
        simp [runChain, scheduleSyncCallback, pushRun, hsq]
  | readLane id => intro s; exact ⟨rfl, rfl⟩

theorem drainLoop_pres (isSync : Bool) :
    ∀ (i : Nat) (s : SchedState),
      (drainLoop isSync i s).1.lanePriority = s.lanePriority ∧
      (drainLoop isSync i s).1.isFlushingSyncQueue = s.isFlushingSyncQueue :=
  drainLoop.induct isSync
    (fun i s =>
      (drainLoop isSync i s).1.lanePriority = s.lanePriority ∧
      (drainLoop isSync i s).1.isFlushingSyncQueue = s.isFlushingSyncQueue)
    (by
      intro i s hq
      rw [drainLoop_queue_absent isSync i s hq]
      exact ⟨rfl, rfl⟩)
    (by
      intro i s q hq h s1 hr ih
      rw [drainLoop_step_ok isSync i s s1 q hq h hr]
      have hp := runChain_pres isSync (q.get ⟨i, h⟩) s
      rw [hr] at hp
      exact ⟨ih.1.trans hp.1, ih.2.trans hp.2⟩)
    (by
      intro i s q hq h s1 e hr
      rw [drainLoop_step_err isSync i s s1 q e hq h hr]
      have hp := runChain_pres isSync (q.get ⟨i, h⟩) s
      rw [hr] at hp
      exact ⟨hp.1, hp.2⟩)
    (by
      intro i s q hq h
      rw [drainLoop_done isSync i s q hq h]
      exact ⟨rfl, rfl⟩)

theorem drainLoop_plain_seg (isSync : Bool) :
    ∀ (k i : Nat) (s : SchedState) (q : List Callback),
      s.syncQueue = some q → i + k ≤ q.length →
      (∀ cb ∈ (q.drop i).take k, cb.plain = true) →
      drainLoop isSync i s =
        drainLoop isSync (i + k)
          { s with runLog := s.runLog ++
              (((q.drop i).take k).map (Callback.chainLog isSync)).flatten } := by
  intro k
  induction k with
  | zero =>
      intro i s q hq _ _
      simp
  | succ k ih =>
      intro i s q hq hlen hplain
      have h : i < q.length := by omega
      have hdrop : q.drop i = q.get ⟨i, h⟩ :: q.drop (i + 1) :=
        List.drop_eq_getElem_cons h
      have hcb : (q.get ⟨i, h⟩).plain = true := by
        apply hplain
        rw [hdrop, List.take_succ_cons]
        exact List.mem_cons_self _ _
      have hstep := runChain_plain isSync (q.get ⟨i, h⟩) hcb s
      rw [drainLoop_step_ok isSync i s
        ({ s with runLog := s.runLog ++ (q.get ⟨i, h⟩).chainLog isSync }) q hq h hstep]
      have htail : ∀ cb ∈ (q.drop (i + 1)).take k, cb.plain = true := by
        intro cb hc
        apply hplain
        rw [hdrop, List.take_succ_cons]
        exact List.mem_cons_of_mem _ hc
      rw [ih (i + 1)
        ({ s with runLog := s.runLog ++ (q.get ⟨i, h⟩).chainLog isSync }) q hq
        (by omega) htail]
      have hidx : i + 1 + k = i + (k + 1) := by omega
      rw [hidx]
      congr 1
      rw [hdrop, List.take_succ_cons]
      simp [List.append_assoc]

theorem drainLoop_plain_all (isSync : Bool) (i : Nat) (s : SchedState)
    (q : List Callback) (hq : s.syncQueue = some q)
    (hplain : ∀ cb ∈ q.drop i, cb.plain = true) :
    drainLoop isSync i s =
      ({ s with runLog := s.runLog ++
          ((q.drop i).map (Callback.chainLog isSync)).flatten }, none) := by
  by_cases hi : i ≤ q.length
  · have htake : (q.drop i).take (q.length - i) = q.drop i := by
      rw [← List.length_drop]
      exact List.take_length _
    have hseg := drainLoop_plain_seg isSync (q.length - i) i s q hq (by omega)
      (by rw [htake]; exact hplain)
    rw [htake] at hseg
    rw [hseg]
    have hidx : i + (q.length - i) = q.length := by omega
    rw [hidx]
    exact drainLoop_done isSync q.length _ q hq (by omega)
  · have hdrop : q.drop i = [] := List.drop_eq_nil_of_le (by omega)
    rw [drainLoop_done isSync i s q hq (by omega), hdrop]
    simp

theorem flushImpl_plain (d : Bool) (s : SchedState) (q : List Callback)
    (hq : s.syncQueue = some q) (hf : s.isFlushingSyncQueue = false)
    (hplain : ∀ cb ∈ q, cb.plain = true) :
    flushSyncCallbackQueueImpl d s =
      ({ s with syncQueue := none,
                runLog := s.runLog ++ (q.map (Callback.chainLog true)).flatten },
        none) := by
  obtain ⟨sq, node, flag, tok, hlog, rlog, lane, obs, amb⟩ := s
  simp only at hq hf
  subst hq hf
  cases d with
  | true =>
      have hd := drainLoop_plain_all true 0
        ⟨some q, node, true, tok, hlog, rlog, SyncLanePriority, obs,
          Scheduler_ImmediatePriority⟩ q rfl (by simpa using hplain)
      simp [flushSyncCallbackQueueImpl, hd]
  | false =>
      have hd := drainLoop_plain_all true 0
        ⟨some q, node, true, tok, hlog, rlog, lane, obs,
          Scheduler_ImmediatePriority⟩ q rfl (by simpa using hplain)
      simp [flushSyncCallbackQueueImpl, hd]

theorem enqueueAll_some :
    ∀ (cbs : List Callback) (s : SchedState) (q : List Callback),
      s.syncQueue = some q →
      enqueueAll cbs s = { s with syncQueue := some (q ++ cbs) } := by
  intro cbs
  induction cbs with
  | nil =>
      intro s q hq
      simp only [enqueueAll, List.foldl_nil, List.append_nil, ← hq]
  | cons c cs ih =>
      intro s q hq
      have e1 : enqueueAll (c :: cs) s = enqueueAll cs (scheduleSyncCallback s c).1 := rfl
      have h1 : (scheduleSyncCallback s c).1 = { s with syncQueue := some (q ++ [c]) } := by
        simp [scheduleSyncCallback, hq]
      rw [e1, h1, ih _ (q ++ [c]) rfl]
      simp

theorem enqueueAll_absent (c : Callback) (cs : List Callback) (s : SchedState)
    (hq : s.syncQueue = none) :
    enqueueAll (c :: cs) s =
      { s with syncQueue := some (c :: cs),
               immediateQueueCallbackNode := some s.nextToken,
               nextToken := s.nextToken + 1,
               hostLog := s.hostLog ++
                 [HostCall.schedule Scheduler_ImmediatePriority s.nextToken FlushKind.impl] } := by
  have e1 : enqueueAll (c :: cs) s = enqueueAll cs (scheduleSyncCallback s c).1 := rfl
  have h1 : (scheduleSyncCallback s c).1 =
      { s with syncQueue := some [c],
               immediateQueueCallbackNode := some s.nextToken,
               nextToken := s.nextToken + 1,
               hostLog := s.hostLog ++
                 [HostCall.schedule Scheduler_ImmediatePriority s.nextToken FlushKind.impl] } := by
    simp [scheduleSyncCallback, hq]
  rw [e1, h1, enqueueAll_some cs _ [c] rfl]
  simp

theorem flush_plain_both (d : Bool) (s : SchedState) (q : List Callback)
    (hq : s.syncQueue = some q) (hf : s.isFlushingSyncQueue = false)
    (hplain : ∀ cb ∈ q, cb.plain = true) :
    (flushSyncCallbackQueue d s).1.runLog
        = s.runLog ++ (q.map (Callback.chainLog true)).flatten ∧
    (flushSyncCallbackQueue d s).1.syncQueue = none ∧
    (flushSyncCallbackQueue d s).2 = none := by
  unfold flushSyncCallbackQueue
  cases hn : s.immediateQueueCallbackNode with
  | none =>
      simp only [hn]
      rw [flushImpl_plain d s q hq hf hplain]
      exact ⟨rfl, rfl, rfl⟩
  | some node =>
      simp only [hn]
      rw [flushImpl_plain d
        { s with immediateQueueCallbackNode := none,
                 hostLog := s.hostLog ++ [HostCall.cancel node] } q hq hf hplain]
      exact ⟨rfl, rfl, rfl⟩

/-- C1: for every sequence of callbacks enqueued via `scheduleSyncCallback`
with no intervening flush, a subsequent drain — the automatic one
(`flushSyncCallbackQueueImpl`) or the explicit `flushSyncCallbackQueue` —
invokes every enqueued callback chain to completion exactly once, in
original enqueue order, exhausting each entry's continuation chain with the
forced-synchronous flag `true` before starting the next entry (the run log
is exactly the concatenation of the per-entry chain logs, in enqueue
order), and on success leaves the queue empty (`none`). -/
theorem c1_drain_runs_all_chains_in_order (d : Bool) (cbs : List Callback)
    (h : ∀ cb ∈ cbs, cb.plain = true) :
    (flushSyncCallbackQueueImpl d (enqueueAll cbs initialState)).1.runLog
        = (cbs.map (Callback.chainLog true)).flatten ∧
    (flushSyncCallbackQueueImpl d (enqueueAll cbs initialState)).1.syncQueue = none ∧
    (flushSyncCallbackQueueImpl d (enqueueAll cbs initialState)).2 = none ∧
    (flushSyncCallbackQueue d (enqueueAll cbs initialState)).1.runLog
        = (cbs.map (Callback.chainLog true)).flatten ∧
    (flushSyncCallbackQueue d (enqueueAll cbs initialState)).1.syncQueue = none ∧
    (flushSyncCallbackQueue d (enqueueAll cbs initialState)).2 = none := by
  cases cbs with
  | nil =>
      simp [enqueueAll, flushSyncCallbackQueue, flushSyncCallbackQueueImpl,
        initialState]
  | cons c cs =>
      have hq1 : (enqueueAll (c :: cs) initialState).syncQueue = some (c :: cs) := by
        rw [enqueueAll_absent c cs initialState rfl]
      have hf1 : (enqueueAll (c :: cs) initialState).isFlushingSyncQueue = false := by
        rw [enqueueAll_absent c cs initialState rfl]
        rfl
      have hr1 : (enqueueAll (c :: cs) initialState).runLog = [] := by
        rw [enqueueAll_absent c cs initialState rfl]
        rfl
      have hA := flushImpl_plain d _ (c :: cs) hq1 hf1 h
      have hB := flush_plain_both d _ (c :: cs) hq1 hf1 h
      refine ⟨?_, ?_, ?_, ?_, hB.2.1, hB.2.2⟩
      · rw [hA]
        simp [hr1]
      · rw [hA]
      · rw [hA]
      · rw [hB.1, hr1]
        simp

/-- Witness for C1 at a concrete input: two chained callbacks and a simple
one, enqueued in order, drained with the forced-synchronous flag. -/
theorem c1_drain_runs_all_chains_in_order_witness :
    (flushSyncCallbackQueueImpl true
        (enqueueAll [Callback.cont 1 (Callback.basic 2), Callback.basic 3]
          initialState)).1.runLog
      = [(1, true), (2, true), (3, true)] ∧
    (flushSyncCallbackQueueImpl true
        (enqueueAll [Callback.cont 1 (Callback.basic 2), Callback.basic 3]
          initialState)).1.syncQueue = none :=
  have h := c1_drain_runs_all_chains_in_order true
    [Callback.cont 1 (Callback.basic 2), Callback.basic 3] (by decide)
  ⟨by rw [h.1]; rfl, h.2.1⟩

theorem drainLoop_throws (isSync : Bool) (s : SchedState)
    (q₁ q₂ : List Callback) (a : Nat)
    (hq : s.syncQueue = some (q₁ ++ Callback.throws a :: q₂))
    (hplain : ∀ cb ∈ q₁, cb.plain = true) :
    drainLoop isSync 0 s =
      ({ s with runLog := s.runLog ++
          (q₁.map (Callback.chainLog isSync)).flatten ++ [(a, isSync)] },
        some (a, q₁.length)) := by
  have hlen : q₁.length < (q₁ ++ Callback.throws a :: q₂).length := by simp
  have hseg₀ : ((q₁ ++ Callback.throws a :: q₂).drop 0).take q₁.length = q₁ := by
    rw [List.drop_zero]
    exact List.take_left q₁ _
  have hseg := drainLoop_plain_seg isSync q₁.length 0 s _ hq
    (by simp) (by rw [hseg₀]; exact hplain)
  rw [hseg₀] at hseg
  have hget : (q₁ ++ Callback.throws a :: q₂).get ⟨q₁.length, hlen⟩ =
      Callback.throws a := by
    simp [List.get_eq_getElem, List.getElem_append_right]
  have hstep := drainLoop_step_err isSync q₁.length
    ({ s with runLog := s.runLog ++ (q₁.map (Callback.chainLog isSync)).flatten })
    ({ s with runLog := s.runLog ++ (q₁.map (Callback.chainLog isSync)).flatten
        ++ [(a, isSync)] })
    (q₁ ++ Callback.throws a :: q₂) a hq hlen
    (by rw [hget, runChain_throws])
  rw [hseg]
  simpa using hstep

theorem flushImpl_err (d : Bool) (s : SchedState) (q₁ q₂ : List Callback)
    (a : Nat) (hq : s.syncQueue = some (q₁ ++ Callback.throws a :: q₂))
    (hf : s.isFlushingSyncQueue = false)
    (hplain : ∀ cb ∈ q₁, cb.plain = true) :
    flushSyncCallbackQueueImpl d s =
      ({ s with syncQueue := some q₂,
                runLog := s.runLog ++
                  (q₁.map (Callback.chainLog true)).flatten ++ [(a, true)],
                hostLog := s.hostLog ++
                  [HostCall.schedule Scheduler_ImmediatePriority s.nextToken
                    FlushKind.outer],
                nextToken := s.nextToken + 1 },
        some a) := by
  have hdrop : (q₁ ++ Callback.throws a :: q₂).drop (q₁.length + 1) = q₂ := by
    rw [List.drop_append 1]
    simp
  obtain ⟨sq, node, flag, tok, hlog, rlog, lane, obs, amb⟩ := s
  simp only at hq hf
  subst hq hf
  cases d with
  | true =>
      have hd := drainLoop_throws true
        ⟨some (q₁ ++ Callback.throws a :: q₂), node, true, tok, hlog, rlog,
          SyncLanePriority, obs, Scheduler_ImmediatePriority⟩ q₁ q₂ a rfl hplain
      simp [flushSyncCallbackQueueImpl, hd, hdrop]
  | false =>
      have hd := drainLoop_throws true
        ⟨some (q₁ ++ Callback.throws a :: q₂), node, true, tok, hlog, rlog,
          lane, obs, Scheduler_ImmediatePriority⟩ q₁ q₂ a rfl hplain
      simp [flushSyncCallbackQueueImpl, hd, hdrop]

/-- C2: if the callback at 0-indexed position `k` (here `k = q₁.length`,
with all earlier entries completing) raises during a drain of the queue
`q₁ ++ throws a :: q₂`, then after recovery the queue contains exactly the
entries strictly after the failing one (`q₂`): the failing entry and all
entries before it are dropped and not retried; a new Immediate-priority
flush registration is placed with the host primitive; and the same error is
re-raised to the drain's caller. -/
theorem c2_error_recovery_truncates_and_rethrows (d : Bool) (s : SchedState)
    (q₁ q₂ : List Callback) (a : Nat)
    (hq : s.syncQueue = some (q₁ ++ Callback.throws a :: q₂))
    (hf : s.isFlushingSyncQueue = false)
    (hplain : ∀ cb ∈ q₁, cb.plain = true) :
    (flushSyncCallbackQueueImpl d s).1.syncQueue = some q₂ ∧
    (flushSyncCallbackQueueImpl d s).1.hostLog = s.hostLog ++
      [HostCall.schedule Scheduler_ImmediatePriority s.nextToken FlushKind.outer] ∧
    (flushSyncCallbackQueueImpl d s).2 = some a ∧
    (flushSyncCallbackQueueImpl d s).1.runLog = s.runLog ++
      (q₁.map (Callback.chainLog true)).flatten ++ [(a, true)] := by
  rw [flushImpl_err d s q₁ q₂ a hq hf hplain]
  exact ⟨rfl, rfl, rfl, rfl⟩

/-- Witness for C2: enqueue a completing callback, a throwing callback and
one more; the drain drops the first two, keeps the third, registers a new
flush and re-raises error 2. -/
theorem c2_error_recovery_truncates_and_rethrows_witness :
    (flushSyncCallbackQueueImpl true
        (enqueueAll [Callback.basic 1, Callback.throws 2, Callback.basic 3]
          initialState)).1.syncQueue = some [Callback.basic 3] ∧
    (flushSyncCallbackQueueImpl true
        (enqueueAll [Callback.basic 1, Callback.throws 2, Callback.basic 3]
          initialState)).2 = some 2 :=
  have h := c2_error_recovery_truncates_and_rethrows true
    (enqueueAll [Callback.basic 1, Callback.throws 2, Callback.basic 3]
      initialState)
    [Callback.basic 1] [Callback.basic 3] 2 (by decide) (by decide) (by decide)
  ⟨h.1, h.2.2.1⟩

/-- C4: a drain invocation while a drain is already in progress (the
`isFlushingSyncQueue` guard is set) is a no-op: the state is returned
unchanged (so no queued callback is invoked and no log grows) and no error
is raised — the Draining state is never re-entered from Draining. -/
theorem c4_reentrant_drain_is_noop (d : Bool) (s : SchedState)
    (h : s.isFlushingSyncQueue = true) :
    flushSyncCallbackQueueImpl d s = (s, none) := by
  simp [flushSyncCallbackQueueImpl, h]

/-- Witness for C4: a concrete in-progress-drain state with a non-empty
queue; the drain attempt leaves it untouched. -/
theorem c4_reentrant_drain_is_noop_witness :
    flushSyncCallbackQueueImpl true
        { initialState with isFlushingSyncQueue := true,
                            syncQueue := some [Callback.basic 5] }
      = ({ initialState with isFlushingSyncQueue := true,
                             syncQueue := some [Callback.basic 5] }, none) :=
  c4_reentrant_drain_is_noop true _ rfl

/-- C6: `scheduleSyncCallback` appends to the pending queue: from an absent
queue it creates the queue with that one callback and places exactly one
Immediate-priority registration with the host primitive; from an existing
queue it appends and places no new registration; in every case it returns
the sentinel `fakeCallbackNode`; and `cancelCallback` on the sentinel is a
no-op that never forwards to the host primitive's cancel. -/
theorem c6_scheduleSyncCallback_spec (s : SchedState) (cb : Callback) :
    (s.syncQueue = none →
      scheduleSyncCallback s cb =
        ({ s with syncQueue := some [cb],
                  immediateQueueCallbackNode := some s.nextToken,
                  nextToken := s.nextToken + 1,
                  hostLog := s.hostLog ++
                    [HostCall.schedule Scheduler_ImmediatePriority s.nextToken
                      FlushKind.impl] },
          CallbackNode.fakeCallbackNode)) ∧
    (∀ q, s.syncQueue = some q →
      scheduleSyncCallback s cb =
        ({ s with syncQueue := some (q ++ [cb]) },
          CallbackNode.fakeCallbackNode)) ∧
    cancelCallback s CallbackNode.fakeCallbackNode = s := by
  refine ⟨?_, ?_, rfl⟩
  · intro hq
    simp [scheduleSyncCallback, hq]
  · intro q hq
    simp [scheduleSyncCallback, hq]

/-- Witness for C6: both branches at concrete states, each returning the
sentinel handle. -/
theorem c6_scheduleSyncCallback_spec_witness :
    scheduleSyncCallback initialState (Callback.basic 1) =
      ({ initialState with syncQueue := some [Callback.basic 1],
                           immediateQueueCallbackNode := some 0,
                           nextToken := 1,
                           hostLog := [HostCall.schedule 1 0 FlushKind.impl] },
        CallbackNode.fakeCallbackNode) ∧
    scheduleSyncCallback
        { initialState with syncQueue := some [Callback.basic 1] }
        (Callback.basic 2) =
      ({ initialState with
          syncQueue := some [Callback.basic 1, Callback.basic 2] },
        CallbackNode.fakeCallbackNode) :=
  ⟨by
      have h := (c6_scheduleSyncCallback_spec initialState (Callback.basic 1)).1 rfl
      rw [h]
      rfl,
    by
      have h := (c6_scheduleSyncCallback_spec
        { initialState with syncQueue := some [Callback.basic 1] }
        (Callback.basic 2)).2.1 [Callback.basic 1] rfl
      rw [h]
      rfl⟩

/-- C7: `flushSyncCallbackQueue` first checks the stored host registration
token: when one exists it clears the stored token and cancels that
registration with the host primitive, and in every case it then invokes the
drain routine `flushSyncCallbackQueueImpl` immediately on the resulting
state. -/
theorem c7_explicit_flush_cancels_then_drains (d : Bool) (s : SchedState) :
    (∀ node, s.immediateQueueCallbackNode = some node →
      flushSyncCallbackQueue d s =
        flushSyncCallbackQueueImpl d
          { s with immediateQueueCallbackNode := none,
                   hostLog := s.hostLog ++ [HostCall.cancel node] }) ∧
    (s.immediateQueueCallbackNode = none →
      flushSyncCallbackQueue d s = flushSyncCallbackQueueImpl d s) := by
  constructor
  · intro node hn
    simp [flushSyncCallbackQueue, hn]
  · intro hn
    simp [flushSyncCallbackQueue, hn]

/-- Witness for C7: a state holding registration token 4; the explicit
flush cancels it with the host and proceeds to the drain routine. -/
theorem c7_explicit_flush_cancels_then_drains_witness :
    flushSyncCallbackQueue true
        { initialState with immediateQueueCallbackNode := some 4 } =
      flushSyncCallbackQueueImpl true
        { initialState with immediateQueueCallbackNode := none,
                            hostLog := [HostCall.cancel 4] } :=
  (c7_explicit_flush_cancels_then_drains true
    { initialState with immediateQueueCallbackNode := some 4 }).1 4 rfl

/-- C3: the two priority translation functions are mutually inverse over
the five recognized levels: translating any of the five recognized host
priorities to a layer level and back yields the original host value, and
translating any of the five layer levels to a host priority and back
yields the original layer level. -/
theorem c3_priority_translation_round_trip :
    (∀ x ∈ [Scheduler_ImmediatePriority, Scheduler_UserBlockingPriority,
        Scheduler_NormalPriority, Scheduler_LowPriority, Scheduler_IdlePriority],
      (getCurrentPriorityLevel x).bind reactPriorityToSchedulerPriority =
        Except.ok x) ∧
    (∀ y ∈ [ImmediatePriority, UserBlockingPriority, NormalPriority,
        LowPriority, IdlePriority],
      (reactPriorityToSchedulerPriority y).bind getCurrentPriorityLevel =
        Except.ok y) := by
  constructor <;> intro v hv <;> fin_cases hv <;> rfl

/-- Witness for C3: the round trip at host priority 1 (Immediate) and at
layer level 99 (Immediate). -/
theorem c3_priority_translation_round_trip_witness :
    (getCurrentPriorityLevel 1).bind reactPriorityToSchedulerPriority =
      Except.ok 1 ∧
    (reactPriorityToSchedulerPriority 99).bind getCurrentPriorityLevel =
      Except.ok 99 :=
  ⟨c3_priority_translation_round_trip.1 1 (by decide),
    c3_priority_translation_round_trip.2 99 (by decide)⟩

/-- C8: translating an unrecognized priority fails loudly in either
direction: `getCurrentPriorityLevel` raises the "Unknown priority level."
invariant failure for any host value outside the five recognized ones, and
`reactPriorityToSchedulerPriority` raises the same failure for any layer
value outside the five recognized levels — including `NoPriority`. -/
theorem c8_unknown_priority_fails_loudly :
    (∀ x, x ∉ [Scheduler_ImmediatePriority, Scheduler_UserBlockingPriority,
        Scheduler_NormalPriority, Scheduler_LowPriority, Scheduler_IdlePriority] →
      getCurrentPriorityLevel x = Except.error "Unknown priority level.") ∧
    (∀ y, y ∉ [ImmediatePriority, UserBlockingPriority, NormalPriority,
        LowPriority, IdlePriority] →
      reactPriorityToSchedulerPriority y = Except.error "Unknown priority level.") ∧
    reactPriorityToSchedulerPriority NoPriority =
      Except.error "Unknown priority level." := by
  refine ⟨?_, ?_, rfl⟩
  · intro x hx
    simp only [List.mem_cons, List.not_mem_nil, or_false, not_or] at hx
    obtain ⟨h1, h2, h3, h4, h5⟩ := hx
    simp [getCurrentPriorityLevel, h1, h2, h3, h4, h5]
  · intro y hy
    simp only [List.mem_cons, List.not_mem_nil, or_false, not_or] at hy
    obtain ⟨h1, h2, h3, h4, h5⟩ := hy
    simp [reactPriorityToSchedulerPriority, h1, h2, h3, h4, h5]

/-- Witness for C8: host value 7 and layer value 42 are rejected. -/
theorem c8_unknown_priority_fails_loudly_witness :
    getCurrentPriorityLevel 7 = Except.error "Unknown priority level." ∧
    reactPriorityToSchedulerPriority 42 =
      Except.error "Unknown priority level." :=
  ⟨c8_unknown_priority_fails_loudly.1 7 (by decide),
    c8_unknown_priority_fails_loudly.2.1 42 (by decide)⟩

/-- C9: `now` is normalized against the host clock value observed at module
initialization: when the initial host clock value is large (at least the
10000 threshold the source uses to detect a wall-clock-based host clock),
every call returns the current host clock value minus the initial value;
otherwise the host clock value is forwarded unchanged. -/
theorem c9_now_normalized_against_initial_time (initialTimeMs t : Int) :
    (10000 ≤ initialTimeMs → now initialTimeMs t = t - initialTimeMs) ∧
    (initialTimeMs < 10000 → now initialTimeMs t = t) := by
  constructor
  · intro h
    rw [now, if_neg (by omega)]
  · intro h
    rw [now, if_pos h]

/-- Witness for C9: a wall-clock-like initial reading is rebased, a small
one is forwarded unchanged. -/
theorem c9_now_normalized_against_initial_time_witness :
    now 20000 25000 = 5000 ∧ now 5 7 = 7 :=
  ⟨(c9_now_normalized_against_initial_time 20000 25000).1 (by decide),
    (c9_now_normalized_against_initial_time 5 7).2 (by decide)⟩

theorem drainLoop_schedules (isSync : Bool) (s : SchedState)
    (q₁ q₂ : List Callback) (a : Nat) (c : Callback)
    (hq : s.syncQueue = some (q₁ ++ Callback.schedules a c :: q₂))
    (hp1 : ∀ cb ∈ q₁, cb.plain = true) (hp2 : ∀ cb ∈ q₂, cb.plain = true)
    (hpc : c.plain = true) :
    drainLoop isSync 0 s =
      ({ s with
          syncQueue := some ((q₁ ++ Callback.schedules a c :: q₂) ++ [c]),
          runLog := s.runLog ++ (q₁.map (Callback.chainLog isSync)).flatten
            ++ [(a, isSync)] ++ (q₂.map (Callback.chainLog isSync)).flatten
            ++ Callback.chainLog isSync c }, none) := by
  have hlen : q₁.length < (q₁ ++ Callback.schedules a c :: q₂).length := by simp
  have hseg₀ : ((q₁ ++ Callback.schedules a c :: q₂).drop 0).take q₁.length = q₁ := by
    rw [List.drop_zero]
    exact List.take_left q₁ _
  have hseg := drainLoop_plain_seg isSync q₁.length 0 s _ hq (by simp)
    (by rw [hseg₀]; exact hp1)
  rw [hseg₀] at hseg
  have hget : (q₁ ++ Callback.schedules a c :: q₂).get ⟨q₁.length, hlen⟩ =
      Callback.schedules a c := by
    simp [List.get_eq_getElem, List.getElem_append_right]
  have hstep := drainLoop_step_ok isSync q₁.length
    ({ s with runLog := s.runLog ++ (q₁.map (Callback.chainLog isSync)).flatten })
    ({ s with
        syncQueue := some ((q₁ ++ Callback.schedules a c :: q₂) ++ [c]),
        runLog := s.runLog ++ (q₁.map (Callback.chainLog isSync)).flatten
          ++ [(a, isSync)] })
    (q₁ ++ Callback.schedules a c :: q₂) hq hlen
    (by rw [hget]; exact runChain_schedules isSync a c _ _ hq)
  have hdropB : ((q₁ ++ Callback.schedules a c :: q₂) ++ [c]).drop (q₁.length + 1)
      = q₂ ++ [c] := by
    rw [List.append_assoc, List.cons_append, List.drop_append 1]
    simp
  have hrest : ∀ cb ∈ q₂ ++ [c], cb.plain = true := by
    intro cb hc
    rcases List.mem_append.mp hc with h | h
    · exact hp2 cb h
    · rw [List.mem_singleton.mp h]
      exact hpc
  have hall := drainLoop_plain_all isSync (q₁.length + 1)
    ({ s with
        syncQueue := some ((q₁ ++ Callback.schedules a c :: q₂) ++ [c]),
        runLog := s.runLog ++ (q₁.map (Callback.chainLog isSync)).flatten
          ++ [(a, isSync)] })
    ((q₁ ++ Callback.schedules a c :: q₂) ++ [c]) rfl
    (by rw [hdropB]; exact hrest)
  rw [hdropB] at hall
  rw [Nat.zero_add] at hseg
  rw [hseg, hstep, hall]
  simp [List.append_assoc]

/-- C10: if a callback running during an in-progress drain itself calls
`scheduleSyncCallback`, the newly enqueued callback is appended to the same
live queue and executed within that same drain pass, after all entries
enqueued before it, in order; no new host-primitive registration is placed
for it; and the drain still ends with an empty queue and no error. -/
theorem c10_schedule_during_drain_runs_same_pass (d : Bool) (s : SchedState)
    (q₁ q₂ : List Callback) (a : Nat) (c : Callback)
    (hq : s.syncQueue = some (q₁ ++ Callback.schedules a c :: q₂))
    (hf : s.isFlushingSyncQueue = false)
    (hp1 : ∀ cb ∈ q₁, cb.plain = true) (hp2 : ∀ cb ∈ q₂, cb.plain = true)
    (hpc : c.plain = true) :
    (flushSyncCallbackQueueImpl d s).1.runLog = s.runLog
      ++ (q₁.map (Callback.chainLog true)).flatten ++ [(a, true)]
      ++ (q₂.map (Callback.chainLog true)).flatten
      ++ Callback.chainLog true c ∧
    (flushSyncCallbackQueueImpl d s).1.syncQueue = none ∧
    (flushSyncCallbackQueueImpl d s).1.hostLog = s.hostLog ∧
    (flushSyncCallbackQueueImpl d s).2 = none := by
  obtain ⟨sq, node, flag, tok, hlog, rlog, lane, obs, amb⟩ := s
  simp only at hq hf
  subst hq hf
  cases d with
  | true =>
      have hd := drainLoop_schedules true
        ⟨some (q₁ ++ Callback.schedules a c :: q₂), node, true, tok, hlog, rlog,
          SyncLanePriority, obs, Scheduler_ImmediatePriority⟩ q₁ q₂ a c rfl
        hp1 hp2 hpc
      simp [flushSyncCallbackQueueImpl, hd, List.append_assoc]
  | false =>
      have hd := drainLoop_schedules true
        ⟨some (q₁ ++ Callback.schedules a c :: q₂), node, true, tok, hlog, rlog,
          lane, obs, Scheduler_ImmediatePriority⟩ q₁ q₂ a c rfl
        hp1 hp2 hpc
      simp [flushSyncCallbackQueueImpl, hd, List.append_assoc]

/-- Witness for C10: a drain of [basic 1, schedules 2 (basic 4), basic 3]
runs 1, 2, 3 and then the freshly enqueued 4 in the same pass, leaving the
queue empty with no error and no new host registration. -/
theorem c10_schedule_during_drain_runs_same_pass_witness :
    (flushSyncCallbackQueueImpl true
        (enqueueAll [Callback.basic 1, Callback.schedules 2 (Callback.basic 4),
          Callback.basic 3] initialState)).1.runLog
      = [(1, true), (2, true), (3, true), (4, true)] ∧
    (flushSyncCallbackQueueImpl true
        (enqueueAll [Callback.basic 1, Callback.schedules 2 (Callback.basic 4),
          Callback.basic 3] initialState)).1.syncQueue = none :=
  have h := c10_schedule_during_drain_runs_same_pass true
    (enqueueAll [Callback.basic 1, Callback.schedules 2 (Callback.basic 4),
      Callback.basic 3] initialState)
    [Callback.basic 1] [Callback.basic 3] 2 (Callback.basic 4)
    (by decide) (by decide) (by decide) (by decide) (by decide)
  ⟨by rw [h.1]; rfl, h.2.1⟩

theorem drainLoop_readLane_end (isSync : Bool) (s : SchedState)
    (q₁ : List Callback) (a : Nat)
    (hq : s.syncQueue = some (q₁ ++ [Callback.readLane a]))
    (hp1 : ∀ cb ∈ q₁, cb.plain = true) :
    drainLoop isSync 0 s =
      ({ s with
          runLog := s.runLog ++ (q₁.map (Callback.chainLog isSync)).flatten
            ++ [(a, isSync)],
          laneObsLog := s.laneObsLog ++ [(a, s.lanePriority)] }, none) := by
  have hlen : q₁.length < (q₁ ++ [Callback.readLane a]).length := by simp
  have hseg₀ : ((q₁ ++ [Callback.readLane a]).drop 0).take q₁.length = q₁ := by
    rw [List.drop_zero]
    exact List.take_left q₁ _
  have hseg := drainLoop_plain_seg isSync q₁.length 0 s _ hq (by simp)
    (by rw [hseg₀]; exact hp1)
  rw [hseg₀] at hseg
  rw [Nat.zero_add] at hseg
  have hget : (q₁ ++ [Callback.readLane a]).get ⟨q₁.length, hlen⟩ =
      Callback.readLane a := by
    simp [List.get_eq_getElem, List.getElem_append_right]
  have hstep := drainLoop_step_ok isSync q₁.length
    ({ s with runLog := s.runLog ++ (q₁.map (Callback.chainLog isSync)).flatten })
    ({ s with
        runLog := s.runLog ++ (q₁.map (Callback.chainLog isSync)).flatten
          ++ [(a, isSync)],
        laneObsLog := s.laneObsLog ++ [(a, s.lanePriority)] })
    (q₁ ++ [Callback.readLane a]) hq hlen
    (by rw [hget]; exact runChain_readLane isSync a _)
  have hdone := drainLoop_done isSync (q₁.length + 1)
    ({ s with
        runLog := s.runLog ++ (q₁.map (Callback.chainLog isSync)).flatten
          ++ [(a, isSync)],
        laneObsLog := s.laneObsLog ++ [(a, s.lanePriority)] })
    (q₁ ++ [Callback.readLane a]) hq (by simp)
  rw [hseg, hstep, hdone]

/-- C5: with the update-priority-decoupling capability flag set, a drain
snapshots the rendering engine's current update lane priority, forces the
distinguished `SyncLanePriority` for the duration of the drain (a callback
that reads the lane priority during the drain observes `SyncLanePriority`),
and afterwards — success or failure alike, since the restore is in the
`finally` clause — the lane priority equals its pre-drain snapshot and the
re-entrancy guard is clear. -/
theorem c5_decoupled_drain_forces_and_restores_lane_priority (s : SchedState)
    (hf : s.isFlushingSyncQueue = false) :
    (flushSyncCallbackQueueImpl true s).1.lanePriority = s.lanePriority ∧
    (flushSyncCallbackQueueImpl true s).1.isFlushingSyncQueue = false ∧
    (∀ q₁ a, s.syncQueue = some (q₁ ++ [Callback.readLane a]) →
      (∀ cb ∈ q₁, cb.plain = true) →
      (flushSyncCallbackQueueImpl true s).1.laneObsLog =
        s.laneObsLog ++ [(a, SyncLanePriority)]) := by
  obtain ⟨sq, node, flag, tok, hlog, rlog, lane, obs, amb⟩ := s
  simp only at hf
  subst hf
  cases sq with
  | none =>
      refine ⟨by simp [flushSyncCallbackQueueImpl], by simp [flushSyncCallbackQueueImpl], ?_⟩
      intro q₁ a h _
      exact absurd h (by simp)
  | some q =>
      rcases hdl : drainLoop true 0
        ⟨some q, node, true, tok, hlog, rlog, SyncLanePriority, obs,
          Scheduler_ImmediatePriority⟩ with ⟨s4, r⟩
      have h12 :
          (flushSyncCallbackQueueImpl true
            ⟨some q, node, false, tok, hlog, rlog, lane, obs, amb⟩).1.lanePriority
              = lane ∧
          (flushSyncCallbackQueueImpl true
            ⟨some q, node, false, tok, hlog, rlog, lane, obs, amb⟩).1.isFlushingSyncQueue
              = false := by
        cases r with
        | none => simp [flushSyncCallbackQueueImpl, hdl]
        | some p =>
            obtain ⟨e, i⟩ := p
            cases hs4 : s4.syncQueue with
            | none => simp [flushSyncCallbackQueueImpl, hdl, hs4]
            | some q4 => simp [flushSyncCallbackQueueImpl, hdl, hs4]
      refine ⟨h12.1, h12.2, ?_⟩
      intro q₁ a hq hplain
      rw [Option.some.injEq] at hq
      subst hq
      have hd := drainLoop_readLane_end true
        ⟨some (q₁ ++ [Callback.readLane a]), node, true, tok, hlog, rlog,
          SyncLanePriority, obs, Scheduler_ImmediatePriority⟩ q₁ a rfl hplain
      simp [flushSyncCallbackQueueImpl, hd]

/-- Witness for C5: a drain of [basic 1, readLane 2] from a state whose
lane priority is 7 observes `SyncLanePriority` inside the drain and ends
with lane priority 7 and a clear guard. -/
theorem c5_decoupled_drain_forces_and_restores_lane_priority_witness :
    (flushSyncCallbackQueueImpl true
        { initialState with
            lanePriority := 7,
            syncQueue := some [Callback.basic 1, Callback.readLane 2] }).1.lanePriority
      = 7 ∧
    (flushSyncCallbackQueueImpl true
        { initialState with
            lanePriority := 7,
            syncQueue := some [Callback.basic 1, Callback.readLane 2] }).1.isFlushingSyncQueue
      = false ∧
    (flushSyncCallbackQueueImpl true
        { initialState with
            lanePriority := 7,
            syncQueue := some [Callback.basic 1, Callback.readLane 2] }).1.laneObsLog
      = [(2, SyncLanePriority)] :=
  have h := c5_decoupled_drain_forces_and_restores_lane_priority
    { initialState with
        lanePriority := 7,
        syncQueue := some [Callback.basic 1, Callback.readLane 2] } rfl
  ⟨h.1, h.2.1, h.2.2 [Callback.basic 1] 2 rfl (by decide)⟩
